import Mathlib

/-!
Shallow embedding of the figure-skating feedback-loop analysis pipeline:
the angle-analysis service (per-frame angle extraction, gap filling, the
two-pass cumulative rotation tracker) and the jump-metrics service
(marker resolution, air time, rotation count, jump height), together
with theorems checking the documented properties of these functions.

JavaScript numbers are modelled exactly: the purely arithmetic parts
(deltas, sums, thresholds, interpolation) are stated over an arbitrary
linear ordered field and instantiated at `ℚ` for concrete evaluation,
while the trigonometric angle extractors are modelled over `ℝ`.
-/

namespace FeedbackLoop

/-- One sample of a named angle channel: `{timestamp, frameIndex, angle}`
(`AngleData` in `angleAnalysisService.ts`). -/
structure AngleData (α : Type) where
  timestamp : α
  frameIndex : ℕ
  angle : α
  deriving DecidableEq

variable {α : Type} [LinearOrderedField α]

/-- Pass-1 wraparound of `calculateCumulativeRotation`: the two sequential
conditional corrections `if (angleDiff > 180) angleDiff -= 360;
if (angleDiff < -180) angleDiff += 360;`. -/
def wrapDelta (d : α) : α :=
  let d1 := if 180 < d then d - 360 else d
  if d1 < -180 then d1 + 360 else d1

/-- The list of raw frame-to-frame differences `current.angle - previous.angle`
taken over consecutive samples. -/
def angleDeltas (l : List (AngleData α)) : List α :=
  List.zipWith (fun prev cur => cur.angle - prev.angle) l l.tail

/-- Pass 1 of `calculateCumulativeRotation`: the sum of wrapped deltas. -/
def netRotation (l : List (AngleData α)) : α :=
  ((angleDeltas l).map wrapDelta).sum

/-- Pass-2 direction forcing of `calculateCumulativeRotation`, with the
noise threshold `ROTATION_NOISE_THRESHOLD = 20`: the source tests the
booleans `isCCW = netRotation > 0` and `isCW = netRotation < 0`; for a
CCW-dominant series a raw delta below `-20` gets `360` added, for a
CW-dominant series a raw delta above `20` gets `360` subtracted, anything
else passes through. -/
def forceDirectionDelta (net d : α) : α :=
  if 0 < net then (if d < -20 then d + 360 else d)
  else if net < 0 then (if 20 < d then d - 360 else d)
  else d

/-- `calculateCumulativeRotation` from `angleAnalysisService.ts`: returns `[]`
for fewer than 2 samples; otherwise pass 1 computes the net rotation from
wrapped deltas and classifies the direction (`isCCW` iff net > 0, `isCW` iff
net < 0), and pass 2 emits the running sum of direction-forced raw deltas,
starting at 0 on the first sample, keeping each sample's timestamp and
frame index. -/
def calculateCumulativeRotation (l : List (AngleData α)) : List (AngleData α) :=
  if l.length < 2 then []
  else
    let cums := ((angleDeltas l).map (forceDirectionDelta (netRotation l))).scanl (· + ·) 0
    List.zipWith
      (fun s c => { timestamp := s.timestamp, frameIndex := s.frameIndex, angle := c })
      l cums

/-- The rotation count the spec assigns to a whole cumulative series:
`|cumulative(end) - cumulative(start)| / 360` over the first and last sample. -/
def seriesRotationCount (l : List (AngleData α)) : Option α :=
  match (calculateCumulativeRotation l).head?, (calculateCumulativeRotation l).getLast? with
  | some s, some e => some (|e.angle - s.angle| / 360)
  | _, _ => none

/-! Reference (spec-side) two-pass algorithm, written from the words of the
spec for the refinement claim: it operates on the bare angle values. -/

/-- Spec wording of the wraparound rule: a delta greater than 180 has 360
subtracted, a delta less than -180 has 360 added. -/
def specWrapDelta (d : α) : α :=
  if 180 < d then d - 360 else if d < -180 then d + 360 else d

/-- Spec-side raw frame-to-frame deltas of an angle-value series. -/
def specRawDeltas (xs : List α) : List α :=
  List.zipWith (fun a b => b - a) xs xs.tail

/-- Spec-side pass 1: sum of wrapped deltas. -/
def specNetRotation (xs : List α) : α :=
  ((specRawDeltas xs).map specWrapDelta).sum

/-- Spec-side pass 2 correction: for a CCW-dominant series (net > 0) any raw
delta more negative than -20 has 360 added; for a CW-dominant series
(net < 0) any raw delta more positive than +20 has 360 subtracted; every
other delta passes through unmodified. -/
def specCorrectDelta (net d : α) : α :=
  if 0 < net then (if d < -20 then d + 360 else d)
  else if net < 0 then (if 20 < d then d - 360 else d)
  else d

/-- Spec-side cumulative series: 0 at the first sample, then the running sum
of corrected raw deltas. -/
def specCumulativeSeries (xs : List α) : List α :=
  ((specRawDeltas xs).map (specCorrectDelta (specNetRotation xs))).scanl (· + ·) 0

/-! Frame store data model (`analysisStore.ts`) and gap filling. -/

/-- A detected 3D pose point (`PoseLandmark` in `poseDetector.ts`): `z` and
`visibility` are optional in the source interface. -/
structure PoseLandmark (α : Type) where
  x : α
  y : α
  z : Option α
  visibility : Option α
  deriving DecidableEq

/-- One analyzed frame (`FrameAnalysis` in `analysisStore.ts`): the screen-space
landmark list is irrelevant to the metrics pipeline and omitted. -/
structure FrameAnalysis (α : Type) where
  timestamp : α
  worldLandmarks : Option (List (PoseLandmark α))
  processed : Bool
  deriving DecidableEq

/-- A completed (or not) per-video analysis (`VideoAnalysis` in
`analysisStore.ts`); only the fields the metrics pipeline reads are kept. -/
structure VideoAnalysis (α : Type) where
  frames : List (FrameAnalysis α)
  isComplete : Bool
  deriving DecidableEq

/-- The scan of `interpolateAngleValue`'s surrounding-points loop: `before`
becomes the latest sample with `timestamp ≤ t`, and the loop breaks at the
first sample with `timestamp ≥ t`, which becomes `after`. -/
def findSurroundGo [DecidableEq α] (t : α) (before : Option (AngleData α)) :
    List (AngleData α) → Option (AngleData α) × Option (AngleData α)
  | [] => (before, none)
  | s :: rest =>
    let b := if s.timestamp ≤ t then some s else before
    if t ≤ s.timestamp then (b, some s) else findSurroundGo t b rest

/-- `interpolateAngleValue` from `angleAnalysisService.ts`: clamp to the first
or last known value outside the series' range, linearly interpolate between
the surrounding samples otherwise.  The final fallback translates the
JavaScript `return beforeData?.angle || null`, whose `||` turns an angle of
`0` into `null`. -/
def interpolateAngleValue [DecidableEq α] (angleData : List (AngleData α)) (t : α) : Option α :=
  match angleData with
  | [] => none
  | [s] => some s.angle
  | s1 :: s2 :: rest =>
    match findSurroundGo t none (s1 :: s2 :: rest) with
    | (none, some afterData) => some afterData.angle
    | (some beforeData, none) => some beforeData.angle
    | (some beforeData, some afterData) =>
      if beforeData ≠ afterData then
        let timeDiff := afterData.timestamp - beforeData.timestamp
        let angleProgress := (t - beforeData.timestamp) / timeDiff
        some (beforeData.angle + (afterData.angle - beforeData.angle) * angleProgress)
      else if beforeData.angle = 0 then none
      else some beforeData.angle
    | (none, none) => none

/-- `fillAngleDataGaps` from `angleAnalysisService.ts`: walk the complete
frame timeline; reuse a raw sample whose timestamp matches within 10 ms,
otherwise interpolate (skipping the frame when interpolation yields null);
return the completed series only when it is strictly longer than the raw
series. -/
def fillAngleDataGaps [DecidableEq α] (angleData : List (AngleData α))
    (allFrames : List (FrameAnalysis α)) : List (AngleData α) :=
  if angleData.length = 0 then angleData
  else
    let completeData := allFrames.filterMap (fun frame =>
      let frameIndex := allFrames.indexOf frame
      let timestamp := frame.timestamp
      match angleData.find? (fun data => |data.timestamp - timestamp| < 1 / 100) with
      | some exactMatch => some exactMatch
      | none =>
        (interpolateAngleValue angleData timestamp).map
          (fun interpolatedAngle =>
            { timestamp := timestamp, frameIndex := frameIndex, angle := interpolatedAngle }))
    if angleData.length < completeData.length then completeData else angleData

/-! Per-frame angle extraction (`angleAnalysisService.ts`), over `ℝ` because
of the trigonometric functions. -/

/-- The per-channel result record of `analyzeAngles` (`AngleAnalysis` in
`angleAnalysisService.ts`). -/
structure AngleAnalysis (α : Type) where
  leftKneeFlexion : List (AngleData α)
  rightKneeFlexion : List (AngleData α)
  hipFlexion : List (AngleData α)
  headHipAlignment : List (AngleData α)
  weightBearingHipAngle : List (AngleData α)
  shoulderAngleToIce : List (AngleData α)
  shoulderRotation : List (AngleData α)
  shoulderCumulativeRotation : List (AngleData α)

/-- A 3D vector as manipulated by `calculateAngleBetweenVectors`. -/
structure Vec3 where
  x : ℝ
  y : ℝ
  z : ℝ

/-- The magnitude computation `Math.sqrt(x*x + y*y + z*z)` of
`calculateAngleBetweenVectors`. -/
noncomputable def magnitude (v : Vec3) : ℝ :=
  Real.sqrt (v.x * v.x + v.y * v.y + v.z * v.z)

open Classical in
/-- `calculateAngleBetweenVectors` from `angleAnalysisService.ts`: dot product
over the product of magnitudes, guarded against zero magnitudes, cosine
clamped to `[-1, 1]`, converted from radians to degrees. -/
noncomputable def calculateAngleBetweenVectors (v1 v2 : Vec3) : ℝ :=
  let dot := v1.x * v2.x + v1.y * v2.y + v1.z * v2.z
  let mag1 := magnitude v1
  let mag2 := magnitude v2
  if mag1 = 0 ∨ mag2 = 0 then 0
  else
    let cosAngle := dot / (mag1 * mag2)
    let clampedCos := max (-1) (min 1 cosAngle)
    let angleRadians := Real.arccos clampedCos
    angleRadians * 180 / Real.pi

/-- `Math.atan2`, which Lean's mathematical library does not provide
directly; the standard piecewise definition in terms of `arctan`. -/
noncomputable def atan2 (y x : ℝ) : ℝ :=
  if 0 < x then Real.arctan (y / x)
  else if x < 0 then
    (if 0 ≤ y then Real.arctan (y / x) + Real.pi else Real.arctan (y / x) - Real.pi)
  else if 0 < y then Real.pi / 2
  else if y < 0 then -(Real.pi / 2)
  else 0

/-- The JavaScript coalescing `v.z || 0` applied to the optional `z`
coordinate of a landmark. -/
def zOrZero (p : PoseLandmark ℝ) : ℝ := p.z.getD 0

/-- `calculateLeftKneeFlexion`: angle between the knee-to-hip and
knee-to-ankle vectors, remapped so 0° is a straight leg, floored at 0.
Landmarks 23/25/27 (left hip/knee/ankle). -/
noncomputable def calculateLeftKneeFlexion (landmarks : List (PoseLandmark ℝ)) : Option ℝ :=
  match landmarks.get? 23, landmarks.get? 25, landmarks.get? 27 with
  | some hip, some knee, some ankle =>
    let thighVector : Vec3 := ⟨hip.x - knee.x, hip.y - knee.y, zOrZero hip - zOrZero knee⟩
    let shinVector : Vec3 := ⟨ankle.x - knee.x, ankle.y - knee.y, zOrZero ankle - zOrZero knee⟩
    let angle := calculateAngleBetweenVectors thighVector shinVector
    some (max 0 (180 - angle))
  | _, _, _ => none

/-- `calculateRightKneeFlexion`: same construction on landmarks 24/26/28. -/
noncomputable def calculateRightKneeFlexion (landmarks : List (PoseLandmark ℝ)) : Option ℝ :=
  match landmarks.get? 24, landmarks.get? 26, landmarks.get? 28 with
  | some hip, some knee, some ankle =>
    let thighVector : Vec3 := ⟨hip.x - knee.x, hip.y - knee.y, zOrZero hip - zOrZero knee⟩
    let shinVector : Vec3 := ⟨ankle.x - knee.x, ankle.y - knee.y, zOrZero ankle - zOrZero knee⟩
    let angle := calculateAngleBetweenVectors thighVector shinVector
    some (max 0 (180 - angle))
  | _, _, _ => none

/-- `calculateHipFlexion`: angle between the hip-to-shoulder and hip-to-knee
vectors, landmarks 11/23/25. -/
noncomputable def calculateHipFlexion (landmarks : List (PoseLandmark ℝ)) : Option ℝ :=
  match landmarks.get? 11, landmarks.get? 23, landmarks.get? 25 with
  | some shoulder, some hip, some knee =>
    let torsoVector : Vec3 :=
      ⟨shoulder.x - hip.x, shoulder.y - hip.y, zOrZero shoulder - zOrZero hip⟩
    let thighVector : Vec3 := ⟨knee.x - hip.x, knee.y - hip.y, zOrZero knee - zOrZero hip⟩
    some (calculateAngleBetweenVectors torsoVector thighVector)
  | _, _, _ => none

/-- `calculateHeadHipAlignment`: angle of the hip-center-to-nose vector from
vertical, landmarks 0/23/24. -/
noncomputable def calculateHeadHipAlignment (landmarks : List (PoseLandmark ℝ)) : Option ℝ :=
  match landmarks.get? 0, landmarks.get? 23, landmarks.get? 24 with
  | some nose, some leftHip, some rightHip =>
    let hipCenter : Vec3 := ⟨(leftHip.x + rightHip.x) / 2, (leftHip.y + rightHip.y) / 2,
      (zOrZero leftHip + zOrZero rightHip) / 2⟩
    let headHipVector : Vec3 :=
      ⟨nose.x - hipCenter.x, nose.y - hipCenter.y, zOrZero nose - hipCenter.z⟩
    let verticalVector : Vec3 := ⟨0, -1, 0⟩
    some (calculateAngleBetweenVectors headHipVector verticalVector)
  | _, _, _ => none

/-- `calculateWeightBearingHipAngle`: angle of the inter-hip vector from
horizontal, landmarks 23/24. -/
noncomputable def calculateWeightBearingHipAngle (landmarks : List (PoseLandmark ℝ)) : Option ℝ :=
  match landmarks.get? 23, landmarks.get? 24 with
  | some leftHip, some rightHip =>
    let hipVector : Vec3 :=
      ⟨rightHip.x - leftHip.x, rightHip.y - leftHip.y, zOrZero rightHip - zOrZero leftHip⟩
    let horizontalVector : Vec3 := ⟨1, 0, 0⟩
    some (calculateAngleBetweenVectors hipVector horizontalVector)
  | _, _ => none

/-- `calculateShoulderAngleToIce`: angle of the inter-shoulder vector from
horizontal, landmarks 11/12. -/
noncomputable def calculateShoulderAngleToIce (landmarks : List (PoseLandmark ℝ)) : Option ℝ :=
  match landmarks.get? 11, landmarks.get? 12 with
  | some leftShoulder, some rightShoulder =>
    let shoulderVector : Vec3 := ⟨rightShoulder.x - leftShoulder.x,
      rightShoulder.y - leftShoulder.y, zOrZero rightShoulder - zOrZero leftShoulder⟩
    let horizontalVector : Vec3 := ⟨1, 0, 0⟩
    some (calculateAngleBetweenVectors shoulderVector horizontalVector)
  | _, _ => none

open Classical in
/-- `calculateShoulderRotation`: `atan2` of the shoulder vector in the X-Z
plane, converted to degrees and normalized into `[0, 360)`. -/
noncomputable def calculateShoulderRotation (landmarks : List (PoseLandmark ℝ)) : Option ℝ :=
  match landmarks.get? 11, landmarks.get? 12 with
  | some leftShoulder, some rightShoulder =>
    let dx := rightShoulder.x - leftShoulder.x
    let dz := zOrZero rightShoulder - zOrZero leftShoulder
    let angleDegrees := atan2 dz dx * (180 / Real.pi)
    some (if angleDegrees < 0 then angleDegrees + 360 else angleDegrees)
  | _, _ => none

/-- The frame filter at the top of `analyzeAngles`:
`analysis.frames.filter(f => f.processed && f.worldLandmarks)`. -/
def framesWithLandmarks (analysis : VideoAnalysis α) : List (FrameAnalysis α) :=
  analysis.frames.filter (fun f => f.processed && f.worldLandmarks.isSome)

/-- The per-channel sample collection loop of `analyzeAngles`: one sample per
filtered frame whose extractor succeeds, stamped with the frame's index in
the full (unfiltered) frame sequence. -/
noncomputable def rawChannelData (extract : List (PoseLandmark ℝ) → Option ℝ)
    (analysis : VideoAnalysis ℝ) : List (AngleData ℝ) :=
  (framesWithLandmarks analysis).filterMap (fun frame =>
    match frame.worldLandmarks with
    | none => none
    | some landmarks =>
      (extract landmarks).map (fun angle =>
        { timestamp := frame.timestamp,
          frameIndex := analysis.frames.indexOf frame,
          angle := angle }))

/-- The gap-filled angle channels built by `analyzeAngles`. -/
inductive Channel where
  | leftKneeFlexion
  | rightKneeFlexion
  | hipFlexion
  | headHipAlignment
  | weightBearingHipAngle
  | shoulderAngleToIce
  | shoulderRotation

/-- The extractor `analyzeAngles` uses for each channel. -/
noncomputable def channelExtractor : Channel → (List (PoseLandmark ℝ) → Option ℝ)
  | .leftKneeFlexion => calculateLeftKneeFlexion
  | .rightKneeFlexion => calculateRightKneeFlexion
  | .hipFlexion => calculateHipFlexion
  | .headHipAlignment => calculateHeadHipAlignment
  | .weightBearingHipAngle => calculateWeightBearingHipAngle
  | .shoulderAngleToIce => calculateShoulderAngleToIce
  | .shoulderRotation => calculateShoulderRotation

/-- `analyzeAngles` from `angleAnalysisService.ts`: collect raw per-frame
samples for each channel, gap-fill each channel against the filtered frame
timeline, and derive the cumulative rotation from the gap-filled shoulder
rotation. -/
noncomputable def analyzeAngles (analysis : VideoAnalysis ℝ) : AngleAnalysis ℝ :=
  let frames := framesWithLandmarks analysis
  let shoulderRotationFilled :=
    fillAngleDataGaps (rawChannelData calculateShoulderRotation analysis) frames
  { leftKneeFlexion := fillAngleDataGaps (rawChannelData calculateLeftKneeFlexion analysis) frames
    rightKneeFlexion :=
      fillAngleDataGaps (rawChannelData calculateRightKneeFlexion analysis) frames
    hipFlexion := fillAngleDataGaps (rawChannelData calculateHipFlexion analysis) frames
    headHipAlignment :=
      fillAngleDataGaps (rawChannelData calculateHeadHipAlignment analysis) frames
    weightBearingHipAngle :=
      fillAngleDataGaps (rawChannelData calculateWeightBearingHipAngle analysis) frames
    shoulderAngleToIce :=
      fillAngleDataGaps (rawChannelData calculateShoulderAngleToIce analysis) frames
    shoulderRotation := shoulderRotationFilled
    shoulderCumulativeRotation := calculateCumulativeRotation shoulderRotationFilled }

/-- Channel accessor for stating one property over all gap-filled channels. -/
def AngleAnalysis.channel (aa : AngleAnalysis α) : Channel → List (AngleData α)
  | .leftKneeFlexion => aa.leftKneeFlexion
  | .rightKneeFlexion => aa.rightKneeFlexion
  | .hipFlexion => aa.hipFlexion
  | .headHipAlignment => aa.headHipAlignment
  | .weightBearingHipAngle => aa.weightBearingHipAngle
  | .shoulderAngleToIce => aa.shoulderAngleToIce
  | .shoulderRotation => aa.shoulderRotation

/-! The jump-metrics service (`jumpMetricsService.ts`). -/

/-- Takeoff/landing markers for one video role (`ManualMarkers` entries in
`analysisStore.ts`; the redundant time fields are unused by the engine). -/
structure MarkerPair (α : Type) where
  takeoffFrame : Option α
  landingFrame : Option α

/-- Manual markers for both video roles. -/
structure ManualMarkers (α : Type) where
  reference : MarkerPair α
  user : MarkerPair α

/-- The `videoType` argument of `computeJumpMetrics`. -/
inductive VideoType where
  | reference
  | user

/-- Marker selection `manualMarkers[videoType]`. -/
def markersFor (manualMarkers : ManualMarkers α) : VideoType → MarkerPair α
  | .reference => manualMarkers.reference
  | .user => manualMarkers.user

/-- The output bundle of `computeJumpMetrics` (`JumpMetrics` in
`jumpMetricsService.ts`): every field independently nullable. -/
structure JumpMetrics (α : Type) where
  airTime : Option α
  takeoffFrame : Option ℕ
  landingFrame : Option ℕ
  rotations : Option α
  maxHeight : Option α
  deriving DecidableEq

/-- Loop body of `findClosestFrameByTime`: keep the index of the strictly
smallest `|timestamp - targetTime|` seen so far (ties keep the earlier). -/
def findClosestGo (targetTime : α) (i closestIndex : ℕ) (minTimeDiff : α) :
    List (FrameAnalysis α) → ℕ
  | [] => closestIndex
  | f :: rest =>
    if |f.timestamp - targetTime| < minTimeDiff then
      findClosestGo targetTime (i + 1) i |f.timestamp - targetTime| rest
    else
      findClosestGo targetTime (i + 1) closestIndex minTimeDiff rest

/-- `findClosestFrameByTime` from `jumpMetricsService.ts`: `null` on an empty
frame list, otherwise the index of the frame whose timestamp is closest to
the target. -/
def findClosestFrameByTime (frames : List (FrameAnalysis α)) (targetTime : α) : Option ℕ :=
  match frames with
  | [] => none
  | f0 :: rest => some (findClosestGo targetTime 1 0 |f0.timestamp - targetTime| rest)

/-- Timestamp of `frames[i]`; the default is never reached for the in-range
indices produced by `findClosestFrameByTime`. -/
def timestampAt (frames : List (FrameAnalysis α)) (i : ℕ) : α :=
  ((frames.get? i).map FrameAnalysis.timestamp).getD 0

/-- `extractRotationFromAngleAnalysis` from `jumpMetricsService.ts`: pad the
jump window by `ROTATION_PADDING_FRAMES = 2` on each side (the start clamped
at 0), take the first cumulative sample at or after the window start and the
last at or before the window end, and return
`|end.angle - start.angle| / 360`. -/
def extractRotationFromAngleAnalysis (angleAnalysis : Option (AngleAnalysis α))
    (takeoffFrame landingFrame : ℕ) : Option α :=
  match angleAnalysis with
  | none => none
  | some aa =>
    if aa.shoulderCumulativeRotation.length = 0 then none
    else
      let rotationStartFrame : ℤ := max 0 ((takeoffFrame : ℤ) - 2)
      let rotationEndFrame : ℤ := (landingFrame : ℤ) + 2
      match aa.shoulderCumulativeRotation.find?
              (fun data => rotationStartFrame ≤ (data.frameIndex : ℤ)),
            aa.shoulderCumulativeRotation.reverse.find?
              (fun data => (data.frameIndex : ℤ) ≤ rotationEndFrame) with
      | some startRotationData, some endRotationData =>
        some (|endRotationData.angle - startRotationData.angle| / 360)
      | _, _ => none

/-- `calculateJumpHeight` from `jumpMetricsService.ts`:
`h = gravity * t * t / 8` with `gravity = 9.81`, `null` for non-positive
air time. -/
def calculateJumpHeight (airTime : α) : Option α :=
  if airTime ≤ 0 then none
  else some (981 / 100 * airTime * airTime / 8)

/-- `computeJumpMetrics` from `jumpMetricsService.ts`: validates completeness
and marker presence, converts marker frame numbers to 30 fps timestamps,
resolves them to the closest analysis frames, rejects takeoff ≥ landing,
and assembles the metric bundle. -/
def computeJumpMetrics (analysis : VideoAnalysis α) (manualMarkers : ManualMarkers α)
    (videoType : VideoType) (angleAnalysis : Option (AngleAnalysis α)) :
    Except String (JumpMetrics α) :=
  if ¬ analysis.isComplete then
    .error "Analysis must be complete to compute jump metrics"
  else
    let markers := markersFor manualMarkers videoType
    match markers.takeoffFrame, markers.landingFrame with
    | some rawTakeoffFrame, some rawLandingFrame =>
      let sampleVideoFps : α := 30
      let takeoffTime := rawTakeoffFrame / sampleVideoFps
      let landingTime := rawLandingFrame / sampleVideoFps
      match findClosestFrameByTime analysis.frames takeoffTime,
            findClosestFrameByTime analysis.frames landingTime with
      | some takeoffFrame, some landingFrame =>
        if landingFrame ≤ takeoffFrame then
          .error s!"Invalid frame sequence: takeoff ({takeoffFrame}) must be before landing ({landingFrame})"
        else
          let airTime := timestampAt analysis.frames landingFrame -
            timestampAt analysis.frames takeoffFrame
          let rotations := extractRotationFromAngleAnalysis angleAnalysis takeoffFrame landingFrame
          let maxHeight := calculateJumpHeight airTime
          .ok { airTime := some airTime, takeoffFrame := some takeoffFrame,
                landingFrame := some landingFrame, rotations := rotations,
                maxHeight := maxHeight }
      | _, _ => .error "Could not find analysis frames for takeoff/landing times"
    | _, _ => .error "Both takeoff and landing frames must be specified in manual markers"

/-! Concrete inputs used by counterexamples and witnesses. -/

/-- The synthetic uniform CCW rotation of the spec scenario: 30 evenly
spaced samples, each step +36°, angles `36 * i mod 360 = 36 * (i mod 10)`. -/
def uniformCcw30 : List (AngleData ℚ) :=
  [
    ⟨0, 0, 0⟩, ⟨1, 1, 36⟩,
    ⟨2, 2, 72⟩, ⟨3, 3, 108⟩,
    ⟨4, 4, 144⟩, ⟨5, 5, 180⟩,
    ⟨6, 6, 216⟩, ⟨7, 7, 252⟩,
    ⟨8, 8, 288⟩, ⟨9, 9, 324⟩,
    ⟨10, 10, 0⟩, ⟨11, 11, 36⟩,
    ⟨12, 12, 72⟩, ⟨13, 13, 108⟩,
    ⟨14, 14, 144⟩, ⟨15, 15, 180⟩,
    ⟨16, 16, 216⟩, ⟨17, 17, 252⟩,
    ⟨18, 18, 288⟩, ⟨19, 19, 324⟩,
    ⟨20, 20, 0⟩, ⟨21, 21, 36⟩,
    ⟨22, 22, 72⟩, ⟨23, 23, 108⟩,
    ⟨24, 24, 144⟩, ⟨25, 25, 180⟩,
    ⟨26, 26, 216⟩, ⟨27, 27, 252⟩,
    ⟨28, 28, 288⟩, ⟨29, 29, 324⟩
  ]

/-- The same uniform rotation extended to 31 samples (30 steps of +36°,
exactly 3 full turns). -/
def uniformCcw31 : List (AngleData ℚ) :=
  [
    ⟨0, 0, 0⟩, ⟨1, 1, 36⟩,
    ⟨2, 2, 72⟩, ⟨3, 3, 108⟩,
    ⟨4, 4, 144⟩, ⟨5, 5, 180⟩,
    ⟨6, 6, 216⟩, ⟨7, 7, 252⟩,
    ⟨8, 8, 288⟩, ⟨9, 9, 324⟩,
    ⟨10, 10, 0⟩, ⟨11, 11, 36⟩,
    ⟨12, 12, 72⟩, ⟨13, 13, 108⟩,
    ⟨14, 14, 144⟩, ⟨15, 15, 180⟩,
    ⟨16, 16, 216⟩, ⟨17, 17, 252⟩,
    ⟨18, 18, 288⟩, ⟨19, 19, 324⟩,
    ⟨20, 20, 0⟩, ⟨21, 21, 36⟩,
    ⟨22, 22, 72⟩, ⟨23, 23, 108⟩,
    ⟨24, 24, 144⟩, ⟨25, 25, 180⟩,
    ⟨26, 26, 216⟩, ⟨27, 27, 252⟩,
    ⟨28, 28, 288⟩, ⟨29, 29, 324⟩,
    ⟨30, 30, 0⟩
  ]

/-- An angle-analysis record carrying only the cumulative rotation derived
from `uniformCcw30`. -/
def uniformCcw30Analysis : AngleAnalysis ℚ :=
  ⟨[], [], [], [], [], [], [], calculateCumulativeRotation uniformCcw30⟩

/-- An angle-analysis record carrying only the cumulative rotation derived
from `uniformCcw31`. -/
def uniformCcw31Analysis : AngleAnalysis ℚ :=
  ⟨[], [], [], [], [], [], [], calculateCumulativeRotation uniformCcw31⟩

/-- A motion expressed in the `[0, 360)` encoding: a slow CCW rotation with
one -1° jitter step taken just past the 180° boundary. -/
def encodingA : List (AngleData ℚ) :=
  [⟨0, 0, 0⟩, ⟨1, 1, 90⟩, ⟨2, 2, 181⟩, ⟨3, 3, 180⟩, ⟨4, 4, 270⟩]

/-- The same motion expressed in the `(-180, 180]` encoding: each sample is
congruent mod 360 to the corresponding sample of `encodingA`. -/
def encodingB : List (AngleData ℚ) :=
  [⟨0, 0, 0⟩, ⟨1, 1, 90⟩, ⟨2, 2, -179⟩, ⟨3, 3, 180⟩, ⟨4, 4, -90⟩]

/-- A two-frame completed analysis (frames at 0 s and 1/30 s). -/
def twoFrameAnalysis : VideoAnalysis ℚ :=
  ⟨[⟨0, none, true⟩, ⟨1 / 30, none, true⟩], true⟩

/-- Markers placing takeoff at sample frame 1 and landing at sample frame 0
(an inverted pair). -/
def invertedMarkers : ManualMarkers ℚ :=
  ⟨⟨some 1, some 0⟩, ⟨none, none⟩⟩

/-- Markers placing takeoff at sample frame 0 and landing at sample frame 1. -/
def orderedMarkers : ManualMarkers ℚ :=
  ⟨⟨some 0, some 1⟩, ⟨none, none⟩⟩

/-- An angle analysis whose shoulder-rotation series has a single sample, so
its cumulative rotation is empty. -/
def singleSampleAnalysis : AngleAnalysis ℚ :=
  ⟨[], [], [], [], [], [], [⟨0, 0, 10⟩], calculateCumulativeRotation [⟨0, 0, 10⟩]⟩

/-- A cumulative-rotation series over frame indices 0..4 used to exercise the
rotation window extraction. -/
def windowedAnalysis : AngleAnalysis ℚ :=
  ⟨[], [], [], [], [], [], [],
    [⟨0, 0, 0⟩, ⟨1, 1, 100⟩, ⟨2, 2, 200⟩, ⟨3, 3, 300⟩, ⟨4, 4, 400⟩]⟩

/-- A one-frame video analysis whose frame is processed and carries a
non-null but empty world-landmark list. -/
def emptyLandmarksAnalysis : VideoAnalysis ℝ :=
  ⟨[⟨0, some [], true⟩], true⟩

/-- A minimal two-sample angle series. -/
def twoSampleSeries : List (AngleData ℚ) := [⟨0, 0, 10⟩, ⟨1, 1, 40⟩]

/-- A complete 33-point landmark set (all joints present). -/
def fullLandmarks : List (PoseLandmark ℝ) := List.replicate 33 ⟨0, 0, none, none⟩

/-- A one-frame video analysis whose frame carries a complete landmark
set. -/
def fullFrameAnalysis : VideoAnalysis ℝ := ⟨[⟨0, some fullLandmarks, true⟩], true⟩

/-- A CCW motion with steps away from the noise band, in `[0, 360)`. -/
def encCcwA : List (AngleData ℚ) := [⟨0, 0, 0⟩, ⟨1, 1, 90⟩, ⟨2, 2, 200⟩]

/-- The same motion in `(-180, 180]`. -/
def encCcwB : List (AngleData ℚ) := [⟨0, 0, 0⟩, ⟨1, 1, 90⟩, ⟨2, 2, -160⟩]

/-! Helper lemmas about the cumulative rotation tracker. -/

theorem wrapDelta_eq_specWrapDelta (d : α) : wrapDelta d = specWrapDelta d := by
  simp only [wrapDelta, specWrapDelta]
  split_ifs <;> linarith

theorem length_angleDeltas (l : List (AngleData α)) :
    (angleDeltas l).length = l.length - 1 := by
  simp only [angleDeltas, List.length_zipWith, List.length_tail]
  omega

omit [LinearOrderedField α] in
theorem head?_scanl (f : α → α → α) (b : α) (ds : List α) :
    (List.scanl f b ds).head? = some b := by
  cases ds <;> simp [List.scanl]

theorem getLast?_scanl_add (b : α) (ds : List α) :
    (List.scanl (· + ·) b ds).getLast? = some (b + ds.sum) := by
  induction ds generalizing b with
  | nil => simp [List.scanl]
  | cons d ds ih =>
    have hcons : List.scanl (· + ·) b (d :: ds) =
        b :: List.scanl (· + ·) (b + d) ds := rfl
    rw [hcons]
    rcases hs : List.scanl (· + ·) (b + d) ds with _ | ⟨s, ss⟩
    · exact absurd (congrArg List.length hs) (by simp [List.length_scanl])
    · rw [List.getLast?_cons_cons, ← hs, ih (b + d)]
      simp [add_assoc]

omit [LinearOrderedField α] in
theorem zipWith_snd_eq {β : Type} (as : List β) (bs : List α) (h : bs.length ≤ as.length) :
    List.zipWith (fun _ b => b) as bs = bs := by
  induction bs generalizing as with
  | nil => simp
  | cons b bs ih =>
    cases as with
    | nil => simp at h
    | cons a as =>
      simp only [List.length_cons, Nat.succ_le_succ_iff] at h
      simp only [List.zipWith_cons_cons, List.cons.injEq, true_and]
      exact ih as h

theorem cumulativeRotation_map_angle (l : List (AngleData α)) (h2 : 2 ≤ l.length) :
    (calculateCumulativeRotation l).map AngleData.angle =
      ((angleDeltas l).map (forceDirectionDelta (netRotation l))).scanl (· + ·) 0 := by
  unfold calculateCumulativeRotation
  rw [if_neg (by omega)]
  rw [List.map_zipWith]
  exact zipWith_snd_eq _ _
    (by rw [List.length_scanl, List.length_map, length_angleDeltas]; omega)

theorem wrapDelta_le_forceCCW {net : α} (h : 0 < net) (d : α) :
    wrapDelta d ≤ forceDirectionDelta net d := by
  simp only [wrapDelta, forceDirectionDelta, if_pos h]
  split_ifs <;> linarith

theorem forceCW_le_wrapDelta {net : α} (h : net < 0) (d : α) :
    forceDirectionDelta net d ≤ wrapDelta d := by
  simp only [wrapDelta, forceDirectionDelta, if_neg (asymm h), if_pos h]
  split_ifs <;> linarith

/-- Claim C4: for every input angle series with at least 2 samples, the
cumulative rotation series starts at exactly 0, and the final cumulative
value is positive whenever the pass-1 net rotation is positive and negative
whenever the net rotation is negative. -/
theorem rotation_c4 (l : List (AngleData ℚ)) (h2 : 2 ≤ l.length) :
    (calculateCumulativeRotation l).head?.map AngleData.angle = some 0 ∧
    ∃ v, (calculateCumulativeRotation l).getLast?.map AngleData.angle = some v ∧
      (0 < netRotation l → 0 < v) ∧ (netRotation l < 0 → v < 0) := by
  have hmap := cumulativeRotation_map_angle l h2
  constructor
  · have := head?_scanl (α := ℚ) (· + ·) 0
      ((angleDeltas l).map (forceDirectionDelta (netRotation l)))
    rw [← hmap, List.head?_map] at this
    exact this
  · refine ⟨0 + ((angleDeltas l).map (forceDirectionDelta (netRotation l))).sum, ?_, ?_, ?_⟩
    · have := getLast?_scanl_add (0 : ℚ)
        ((angleDeltas l).map (forceDirectionDelta (netRotation l)))
      rw [← hmap, List.getLast?_map] at this
      exact this
    · intro hpos
      rw [zero_add]
      calc (0 : ℚ) < netRotation l := hpos
        _ ≤ ((angleDeltas l).map (forceDirectionDelta (netRotation l))).sum :=
          List.sum_le_sum (fun d _ => wrapDelta_le_forceCCW hpos d)
    · intro hneg
      rw [zero_add]
      calc ((angleDeltas l).map (forceDirectionDelta (netRotation l))).sum
          ≤ netRotation l := List.sum_le_sum (fun d _ => forceCW_le_wrapDelta hneg d)
        _ < 0 := hneg

/-- Witness for C4 at a concrete two-sample series. -/
theorem rotation_c4_witness :
    2 ≤ twoSampleSeries.length ∧
    ((calculateCumulativeRotation twoSampleSeries).head?.map AngleData.angle = some 0 ∧
      ∃ v, (calculateCumulativeRotation twoSampleSeries).getLast?.map AngleData.angle =
          some v ∧
        (0 < netRotation twoSampleSeries → 0 < v) ∧
        (netRotation twoSampleSeries < 0 → v < 0)) :=
  ⟨by decide, rotation_c4 twoSampleSeries (by decide)⟩

/-- Claim C1: for every shoulder-rotation angle series with at least 2
samples, the cumulative series produced by `calculateCumulativeRotation`
equals the spec's two-pass reference algorithm: pass 1 sums ±180°-wrapped
deltas into a net rotation classifying CCW (net > 0) or CW (net < 0), and
pass 2 outputs 0 followed by a running sum of raw deltas where, for
CCW-dominant series, raw deltas below -20° get 360° added, for CW-dominant
series raw deltas above +20° get 360° subtracted, and all others pass
through unmodified. -/
theorem rotation_c1 (l : List (AngleData ℚ)) (h2 : 2 ≤ l.length) :
    (calculateCumulativeRotation l).map AngleData.angle =
      specCumulativeSeries (l.map AngleData.angle) := by
  have hdeltas : specRawDeltas (l.map AngleData.angle) = angleDeltas l := by
    unfold specRawDeltas angleDeltas
    rw [← List.map_tail, List.zipWith_map]
  have hnet : specNetRotation (l.map AngleData.angle) = netRotation l := by
    unfold specNetRotation netRotation
    rw [hdeltas]
    congr 1
    exact List.map_congr_left (fun d _ => (wrapDelta_eq_specWrapDelta d).symm)
  rw [cumulativeRotation_map_angle l h2]
  unfold specCumulativeSeries
  rw [hdeltas, hnet]
  rfl

/-- Witness for C1 at a concrete five-sample series. -/
theorem rotation_c1_witness :
    2 ≤ encodingA.length ∧
    (calculateCumulativeRotation encodingA).map AngleData.angle =
      specCumulativeSeries (encodingA.map AngleData.angle) :=
  ⟨by decide, rotation_c1 encodingA (by decide)⟩

/-- Claim C2 counterexample: on the series `36 * i mod 360`, `i = 0..29`
(30 evenly spaced samples, each step +36°), the tracker's final cumulative
value is +1044°, not the claimed +1080°, and the derived rotation count is
2.9, not 3.0 (29 steps of 36° cover 2.9 turns, not 3). -/
theorem rotation_c2_counterexample :
    (calculateCumulativeRotation uniformCcw30).getLast?.map AngleData.angle = some 1044 ∧
    some (1044 : ℚ) ≠ some 1080 ∧
    extractRotationFromAngleAnalysis (some uniformCcw30Analysis) 2 27 = some (29 / 10) ∧
    (29 / 10 : ℚ) ≠ 3 := by
  norm_num [uniformCcw30Analysis, uniformCcw30, extractRotationFromAngleAnalysis,
    calculateCumulativeRotation, netRotation, angleDeltas, wrapDelta, forceDirectionDelta,
    List.scanl, List.find?, abs_of_nonneg]

/-- Claim C2 amended: the 30-sample series `36 * i mod 360`, `i = 0..29`
yields final cumulative +1044° and rotation count 2.9; three full CCW turns
require 31 samples (`i = 0..30`), which yield final cumulative +1080° and
rotation count exactly 3.0. -/
theorem rotation_c2_amended :
    (calculateCumulativeRotation uniformCcw30).getLast?.map AngleData.angle = some 1044 ∧
    extractRotationFromAngleAnalysis (some uniformCcw30Analysis) 2 27 = some (29 / 10) ∧
    (calculateCumulativeRotation uniformCcw31).getLast?.map AngleData.angle = some 1080 ∧
    extractRotationFromAngleAnalysis (some uniformCcw31Analysis) 2 28 = some 3 := by
  norm_num [uniformCcw30Analysis, uniformCcw30, uniformCcw31Analysis, uniformCcw31,
    extractRotationFromAngleAnalysis, calculateCumulativeRotation, netRotation, angleDeltas,
    wrapDelta, forceDirectionDelta, List.scanl, List.find?, abs_of_nonneg]

/-- Claim C9: the jump height is `9.81 * t * t / 8` metres for positive air
time `t` (so 1.22625 m for t = 1 s, to within 1e-9) and absent for
non-positive air time. -/
theorem metrics_c9 (t : ℚ) :
    (0 < t → calculateJumpHeight t = some (981 / 100 * t * t / 8)) ∧
    (t ≤ 0 → calculateJumpHeight t = none) ∧
    ∃ h, calculateJumpHeight (1 : ℚ) = some h ∧ |h - 122625 / 100000| ≤ 1 / 1000000000 := by
  refine ⟨?_, ?_, ?_⟩
  · intro ht
    rw [calculateJumpHeight, if_neg (not_le.mpr ht)]
  · intro ht
    rw [calculateJumpHeight, if_pos ht]
  · exact ⟨981 / 800, by norm_num [calculateJumpHeight], by norm_num⟩

/-- Witness for C9 at air times 1 and -1. -/
theorem metrics_c9_witness :
    (0 < (1 : ℚ) ∧ calculateJumpHeight (1 : ℚ) = some (981 / 100 * 1 * 1 / 8)) ∧
    ((-1 : ℚ) ≤ 0 ∧ calculateJumpHeight (-1 : ℚ) = none) :=
  ⟨⟨by norm_num, (metrics_c9 1).1 (by norm_num)⟩,
    ⟨by norm_num, (metrics_c9 (-1)).2.1 (by norm_num)⟩⟩

/-- Claim C6: whenever the resolved takeoff analysis-frame index is greater
than or equal to the resolved landing index, `computeJumpMetrics` reports an
explicit error and returns no metrics bundle. -/
theorem metrics_c6 (analysis : VideoAnalysis ℚ) (manualMarkers : ManualMarkers ℚ)
    (videoType : VideoType) (angleAnalysis : Option (AngleAnalysis ℚ))
    (rawTakeoff rawLanding : ℚ) (takeoffIdx landingIdx : ℕ)
    (hc : analysis.isComplete = true)
    (hmt : (markersFor manualMarkers videoType).takeoffFrame = some rawTakeoff)
    (hml : (markersFor manualMarkers videoType).landingFrame = some rawLanding)
    (hft : findClosestFrameByTime analysis.frames (rawTakeoff / 30) = some takeoffIdx)
    (hfl : findClosestFrameByTime analysis.frames (rawLanding / 30) = some landingIdx)
    (hge : landingIdx ≤ takeoffIdx) :
    ∃ msg, computeJumpMetrics analysis manualMarkers videoType angleAnalysis =
      Except.error msg := by
  refine ⟨s!"Invalid frame sequence: takeoff ({takeoffIdx}) must be before landing ({landingIdx})", ?_⟩
  unfold computeJumpMetrics
  rw [hc]
  simp only [not_true, ite_false, hmt, hml, hft, hfl]
  rw [if_pos hge]

/-- Witness for C6: markers with takeoff at sample frame 1 and landing at
sample frame 0 on a two-frame completed analysis. -/
theorem metrics_c6_witness :
    twoFrameAnalysis.isComplete = true ∧
    (markersFor invertedMarkers .reference).takeoffFrame = some 1 ∧
    (markersFor invertedMarkers .reference).landingFrame = some 0 ∧
    findClosestFrameByTime twoFrameAnalysis.frames (1 / 30) = some 1 ∧
    findClosestFrameByTime twoFrameAnalysis.frames (0 / 30) = some 0 ∧
    (0 : ℕ) ≤ 1 ∧
    ∃ msg, computeJumpMetrics twoFrameAnalysis invertedMarkers .reference none =
      Except.error msg := by
  have h1 : twoFrameAnalysis.isComplete = true := rfl
  have h2 : (markersFor invertedMarkers .reference).takeoffFrame = some 1 := rfl
  have h3 : (markersFor invertedMarkers .reference).landingFrame = some 0 := rfl
  have h4 : findClosestFrameByTime twoFrameAnalysis.frames (1 / 30) = some 1 := by
    norm_num [twoFrameAnalysis, findClosestFrameByTime, findClosestGo, abs_of_nonneg,
      abs_of_nonpos]
  have h5 : findClosestFrameByTime twoFrameAnalysis.frames (0 / 30) = some 0 := by
    norm_num [twoFrameAnalysis, findClosestFrameByTime, findClosestGo, abs_of_nonneg,
      abs_of_nonpos]
  exact ⟨h1, h2, h3, h4, h5, by norm_num,
    metrics_c6 twoFrameAnalysis invertedMarkers .reference none 1 0 1 0 h1 h2 h3 h4 h5
      (by norm_num)⟩

/-- Claim C7: with fewer than 2 samples the cumulative rotation tracker
returns an empty series (absence, not zero), and `computeJumpMetrics` then
returns `rotations = none` while still returning the computed air time and
the height derived from it. -/
theorem metrics_c7 :
    (∀ (l : List (AngleData ℚ)), l.length < 2 → calculateCumulativeRotation l = []) ∧
    ∀ (analysis : VideoAnalysis ℚ) (manualMarkers : ManualMarkers ℚ) (videoType : VideoType)
      (aa : AngleAnalysis ℚ) (shoulderData : List (AngleData ℚ)) (rawTakeoff rawLanding : ℚ)
      (takeoffIdx landingIdx : ℕ),
      aa.shoulderCumulativeRotation = calculateCumulativeRotation shoulderData →
      shoulderData.length < 2 →
      analysis.isComplete = true →
      (markersFor manualMarkers videoType).takeoffFrame = some rawTakeoff →
      (markersFor manualMarkers videoType).landingFrame = some rawLanding →
      findClosestFrameByTime analysis.frames (rawTakeoff / 30) = some takeoffIdx →
      findClosestFrameByTime analysis.frames (rawLanding / 30) = some landingIdx →
      takeoffIdx < landingIdx →
      computeJumpMetrics analysis manualMarkers videoType (some aa) =
        Except.ok
          { airTime := some (timestampAt analysis.frames landingIdx -
              timestampAt analysis.frames takeoffIdx),
            takeoffFrame := some takeoffIdx, landingFrame := some landingIdx,
            rotations := none,
            maxHeight := calculateJumpHeight (timestampAt analysis.frames landingIdx -
              timestampAt analysis.frames takeoffIdx) } := by
  have hempty : ∀ (l : List (AngleData ℚ)), l.length < 2 → calculateCumulativeRotation l = [] :=
    fun l hl => by rw [calculateCumulativeRotation, if_pos hl]
  refine ⟨hempty, ?_⟩
  intro analysis manualMarkers videoType aa shoulderData rawTakeoff rawLanding
    takeoffIdx landingIdx hcum hlen hc hmt hml hft hfl hlt
  have hrot : extractRotationFromAngleAnalysis (some aa) takeoffIdx landingIdx = none := by
    rw [extractRotationFromAngleAnalysis]
    rw [if_pos (by rw [hcum, hempty shoulderData hlen]; rfl)]
  unfold computeJumpMetrics
  rw [hc]
  simp only [not_true, ite_false, hmt, hml, hft, hfl]
  rw [if_neg (by omega), hrot]

/-- Witness for C7: a single-sample shoulder series on a two-frame analysis
with takeoff at frame 0 and landing at frame 1. -/
theorem metrics_c7_witness :
    singleSampleAnalysis.shoulderCumulativeRotation =
        calculateCumulativeRotation [⟨0, 0, 10⟩] ∧
    ([(⟨0, 0, 10⟩ : AngleData ℚ)]).length < 2 ∧
    computeJumpMetrics twoFrameAnalysis orderedMarkers .reference (some singleSampleAnalysis) =
      Except.ok
        { airTime := some (timestampAt twoFrameAnalysis.frames 1 -
            timestampAt twoFrameAnalysis.frames 0),
          takeoffFrame := some 0, landingFrame := some 1,
          rotations := none,
          maxHeight := calculateJumpHeight (timestampAt twoFrameAnalysis.frames 1 -
            timestampAt twoFrameAnalysis.frames 0) } := by
  have h1 : singleSampleAnalysis.shoulderCumulativeRotation =
      calculateCumulativeRotation [⟨0, 0, 10⟩] := rfl
  have h2 : ([(⟨0, 0, 10⟩ : AngleData ℚ)]).length < 2 := by norm_num
  have h3 : twoFrameAnalysis.isComplete = true := rfl
  have h4 : (markersFor orderedMarkers .reference).takeoffFrame = some 0 := rfl
  have h5 : (markersFor orderedMarkers .reference).landingFrame = some 1 := rfl
  have h6 : findClosestFrameByTime twoFrameAnalysis.frames (0 / 30) = some 0 := by
    norm_num [twoFrameAnalysis, findClosestFrameByTime, findClosestGo, abs_of_nonneg,
      abs_of_nonpos]
  have h7 : findClosestFrameByTime twoFrameAnalysis.frames (1 / 30) = some 1 := by
    norm_num [twoFrameAnalysis, findClosestFrameByTime, findClosestGo, abs_of_nonneg,
      abs_of_nonpos]
  exact ⟨h1, h2,
    metrics_c7.2 twoFrameAnalysis orderedMarkers .reference singleSampleAnalysis
      [⟨0, 0, 10⟩] 0 1 0 1 h1 h2 h3 h4 h5 h6 h7 (by norm_num)⟩

omit [LinearOrderedField α] in
/-- `List.find?` on a list that is pairwise `r`-related returns an element
satisfying the predicate that is `r`-below every other element satisfying
it. -/
theorem find?_sorted {p : AngleData α → Bool} {r : AngleData α → AngleData α → Prop}
    {l : List (AngleData α)} (hs : l.Pairwise r) {s : AngleData α}
    (h : l.find? p = some s) :
    s ∈ l ∧ p s = true ∧ ∀ t ∈ l, p t = true → s = t ∨ r s t := by
  induction l with
  | nil => simp at h
  | cons x xs ih =>
    obtain ⟨hx, hxs⟩ := List.pairwise_cons.mp hs
    by_cases hp : p x
    · rw [List.find?_cons_of_pos _ hp] at h
      obtain rfl : x = s := by injection h
      refine ⟨List.mem_cons_self _ _, hp, ?_⟩
      intro t ht _
      rcases List.mem_cons.mp ht with rfl | htxs
      · exact Or.inl rfl
      · exact Or.inr (hx t htxs)
    · rw [List.find?_cons_of_neg _ (by simpa using hp)] at h
      obtain ⟨hmem, hps, hmin⟩ := ih hxs h
      refine ⟨List.mem_cons_of_mem _ hmem, hps, ?_⟩
      intro t ht hpt
      rcases List.mem_cons.mp ht with rfl | htxs
      · exact absurd hpt hp
      · exact hmin t htxs hpt

/-- Claim C5: for a strictly index-sorted cumulative-rotation series whose
frame indices stay within the sequence, the engine's rotation count is
`|cumulative(endFrame) - cumulative(startFrame)| / 360` over the window from
`takeoff - 2` (clamped at 0) to `landing + 2` (clamped to the last sequence
index), the start value being the nearest sample at or after the window
start and the end value the nearest sample at or before the window end. -/
theorem metrics_c5 (aa : AngleAnalysis ℚ) (takeoffIdx landingIdx lastIndex : ℕ)
    (hsort : aa.shoulderCumulativeRotation.Pairwise (fun a b => a.frameIndex < b.frameIndex))
    (hbound : ∀ s ∈ aa.shoulderCumulativeRotation, s.frameIndex ≤ lastIndex)
    (hstart : ∃ s ∈ aa.shoulderCumulativeRotation,
      max 0 ((takeoffIdx : ℤ) - 2) ≤ (s.frameIndex : ℤ))
    (hend : ∃ e ∈ aa.shoulderCumulativeRotation,
      (e.frameIndex : ℤ) ≤ min ((landingIdx : ℤ) + 2) (lastIndex : ℤ)) :
    ∃ s e, extractRotationFromAngleAnalysis (some aa) takeoffIdx landingIdx =
        some (|e.angle - s.angle| / 360) ∧
      s ∈ aa.shoulderCumulativeRotation ∧
      max 0 ((takeoffIdx : ℤ) - 2) ≤ (s.frameIndex : ℤ) ∧
      (∀ s' ∈ aa.shoulderCumulativeRotation,
        max 0 ((takeoffIdx : ℤ) - 2) ≤ (s'.frameIndex : ℤ) → s.frameIndex ≤ s'.frameIndex) ∧
      e ∈ aa.shoulderCumulativeRotation ∧
      (e.frameIndex : ℤ) ≤ min ((landingIdx : ℤ) + 2) (lastIndex : ℤ) ∧
      (∀ e' ∈ aa.shoulderCumulativeRotation,
        (e'.frameIndex : ℤ) ≤ min ((landingIdx : ℤ) + 2) (lastIndex : ℤ) →
          e'.frameIndex ≤ e.frameIndex) := by
  obtain ⟨s0, hs0mem, hs0⟩ := hstart
  obtain ⟨e0, he0mem, he0⟩ := hend
  have hne : ¬ aa.shoulderCumulativeRotation.length = 0 := by
    intro h0
    rw [List.length_eq_zero] at h0
    rw [h0] at hs0mem
    exact absurd hs0mem (List.not_mem_nil s0)
  have hfindS : ∃ s, aa.shoulderCumulativeRotation.find?
      (fun data => decide (max 0 ((takeoffIdx : ℤ) - 2) ≤ (data.frameIndex : ℤ))) = some s := by
    rw [← Option.isSome_iff_exists, List.find?_isSome]
    exact ⟨s0, hs0mem, decide_eq_true hs0⟩
  have hfindE : ∃ e, aa.shoulderCumulativeRotation.reverse.find?
      (fun data => decide ((data.frameIndex : ℤ) ≤ (landingIdx : ℤ) + 2)) = some e := by
    rw [← Option.isSome_iff_exists, List.find?_isSome]
    exact ⟨e0, List.mem_reverse.mpr he0mem,
      decide_eq_true (le_trans he0 (min_le_left _ _))⟩
  obtain ⟨s, hfs⟩ := hfindS
  obtain ⟨e, hfe⟩ := hfindE
  have hsprops := find?_sorted hsort hfs
  have heprops := find?_sorted (List.pairwise_reverse.mpr (by
    simpa using hsort : aa.shoulderCumulativeRotation.Pairwise
      (fun a b => (fun x y => y.frameIndex < x.frameIndex) b a))) hfe
  obtain ⟨hsmem, hsp, hsmin⟩ := hsprops
  obtain ⟨hemem', hep, hemax⟩ := heprops
  have hemem : e ∈ aa.shoulderCumulativeRotation := List.mem_reverse.mp hemem'
  refine ⟨s, e, ?_, hsmem, of_decide_eq_true hsp, ?_, hemem, ?_, ?_⟩
  · rw [extractRotationFromAngleAnalysis]
    rw [if_neg hne]
    dsimp only
    rw [hfs, hfe]
  · intro s' hs'mem hs'
    rcases hsmin s' hs'mem (decide_eq_true hs') with rfl | hlt
    · exact le_refl _
    · exact le_of_lt hlt
  · exact le_min (of_decide_eq_true hep) (by exact_mod_cast hbound e hemem)
  · intro e' he'mem he'
    rcases hemax e' (List.mem_reverse.mpr he'mem)
        (decide_eq_true (le_trans he' (min_le_left _ _))) with rfl | hlt
    · exact le_refl _
    · exact le_of_lt hlt

/-- Witness for C5 on a five-sample cumulative series with takeoff and
landing both resolved to frame 3 and last sequence index 4. -/
theorem metrics_c5_witness :
    (windowedAnalysis.shoulderCumulativeRotation.Pairwise
        (fun a b => a.frameIndex < b.frameIndex) ∧
      (∀ s ∈ windowedAnalysis.shoulderCumulativeRotation, s.frameIndex ≤ 4) ∧
      (∃ s ∈ windowedAnalysis.shoulderCumulativeRotation,
        max 0 ((3 : ℤ) - 2) ≤ (s.frameIndex : ℤ)) ∧
      (∃ e ∈ windowedAnalysis.shoulderCumulativeRotation,
        (e.frameIndex : ℤ) ≤ min ((3 : ℤ) + 2) (4 : ℤ))) ∧
    ∃ s e, extractRotationFromAngleAnalysis (some windowedAnalysis) 3 3 =
        some (|e.angle - s.angle| / 360) ∧
      s ∈ windowedAnalysis.shoulderCumulativeRotation ∧
      max 0 ((3 : ℤ) - 2) ≤ (s.frameIndex : ℤ) ∧
      (∀ s' ∈ windowedAnalysis.shoulderCumulativeRotation,
        max 0 ((3 : ℤ) - 2) ≤ (s'.frameIndex : ℤ) → s.frameIndex ≤ s'.frameIndex) ∧
      e ∈ windowedAnalysis.shoulderCumulativeRotation ∧
      (e.frameIndex : ℤ) ≤ min ((3 : ℤ) + 2) (4 : ℤ) ∧
      (∀ e' ∈ windowedAnalysis.shoulderCumulativeRotation,
        (e'.frameIndex : ℤ) ≤ min ((3 : ℤ) + 2) (4 : ℤ) → e'.frameIndex ≤ e.frameIndex) := by
  refine ⟨⟨?_, ?_, ?_, ?_⟩, metrics_c5 windowedAnalysis 3 3 4 ?_ ?_ ?_ ?_⟩ <;>
    decide

/-- Claim C10: `calculateAngleBetweenVectors` is total and always returns a
value in [0, 180]; when either vector has zero magnitude the guarded branch
returns 0, and otherwise the clamped cosine keeps `arccos` inside its
domain. -/
theorem safety_c10 (v1 v2 : Vec3) :
    (0 ≤ calculateAngleBetweenVectors v1 v2 ∧ calculateAngleBetweenVectors v1 v2 ≤ 180) ∧
    (magnitude v1 = 0 ∨ magnitude v2 = 0 → calculateAngleBetweenVectors v1 v2 = 0) := by
  constructor
  · rw [calculateAngleBetweenVectors]
    by_cases h : magnitude v1 = 0 ∨ magnitude v2 = 0
    · rw [if_pos h]
      norm_num
    · rw [if_neg h]
      dsimp only
      constructor
      · exact div_nonneg (mul_nonneg (Real.arccos_nonneg _) (by norm_num)) Real.pi_pos.le
      · rw [div_le_iff₀ Real.pi_pos]
        have harc := Real.arccos_le_pi
          (max (-1) (min 1 ((v1.x * v2.x + v1.y * v2.y + v1.z * v2.z) /
            (magnitude v1 * magnitude v2))))
        have := mul_le_mul_of_nonneg_right harc (by norm_num : (0 : ℝ) ≤ 180)
        linarith
  · intro h
    rw [calculateAngleBetweenVectors, if_pos h]

/-- Witness for C10 at a zero first vector. -/
theorem safety_c10_witness :
    ((0 ≤ calculateAngleBetweenVectors ⟨0, 0, 0⟩ ⟨1, 2, 2⟩ ∧
      calculateAngleBetweenVectors ⟨0, 0, 0⟩ ⟨1, 2, 2⟩ ≤ 180) ∧
    (magnitude ⟨0, 0, 0⟩ = 0 ∨ magnitude (⟨1, 2, 2⟩ : Vec3) = 0)) ∧
    calculateAngleBetweenVectors ⟨0, 0, 0⟩ ⟨1, 2, 2⟩ = 0 := by
  have hmag : magnitude (⟨0, 0, 0⟩ : Vec3) = 0 := by
    norm_num [magnitude]
  exact ⟨⟨(safety_c10 ⟨0, 0, 0⟩ ⟨1, 2, 2⟩).1, Or.inl hmag⟩,
    (safety_c10 ⟨0, 0, 0⟩ ⟨1, 2, 2⟩).2 (Or.inl hmag)⟩

/-- The surrounding-points scan returns `(none, none)` only on the empty
list with an empty accumulator. -/
theorem findSurroundGo_eq_none_none [DecidableEq α] {t : α} :
    ∀ {l : List (AngleData α)} {bef : Option (AngleData α)},
      findSurroundGo t bef l = (none, none) → l = [] ∧ bef = none := by
  intro l
  induction l with
  | nil =>
    intro bef h
    rw [findSurroundGo] at h
    exact ⟨rfl, congrArg Prod.fst h⟩
  | cons s rest ih =>
    intro bef h
    simp only [findSurroundGo] at h
    by_cases hts : t ≤ s.timestamp
    · rw [if_pos hts] at h
      exact absurd (congrArg Prod.snd h) (by simp)
    · rw [if_neg hts, if_pos (le_of_lt (lt_of_not_le hts))] at h
      exact absurd (ih h).2 (by simp)

/-- When the surrounding-points scan, started from an accumulator of
samples at or before `t`, returns two samples, the `after` sample is in the
list, and the two samples coincide only when their timestamp is exactly
`t`. -/
theorem findSurroundGo_some_some [DecidableEq α] {t : α} :
    ∀ {l : List (AngleData α)} {bef : Option (AngleData α)} {b a : AngleData α},
      (∀ x, bef = some x → x.timestamp ≤ t) →
      findSurroundGo t bef l = (some b, some a) →
      a ∈ l ∧ (b = a → a.timestamp = t) := by
  intro l
  induction l with
  | nil =>
    intro bef b a _ h
    rw [findSurroundGo] at h
    exact absurd (congrArg Prod.snd h) (by simp)
  | cons s rest ih =>
    intro bef b a hbef h
    simp only [findSurroundGo] at h
    by_cases hts : t ≤ s.timestamp
    · rw [if_pos hts] at h
      have hb : (if s.timestamp ≤ t then some s else bef) = some b := congrArg Prod.fst h
      have ha : some s = some a := congrArg Prod.snd h
      obtain rfl : s = a := by injection ha
      refine ⟨List.mem_cons_self _ _, ?_⟩
      intro hba
      by_cases hst : s.timestamp ≤ t
      · exact le_antisymm hst hts
      · rw [if_neg hst] at hb
        exact absurd (hba ▸ hbef b hb) hst
    · rw [if_neg hts] at h
      have hbef' : ∀ x, (if s.timestamp ≤ t then some s else bef) = some x →
          x.timestamp ≤ t := by
        intro x hx
        by_cases hst : s.timestamp ≤ t
        · rw [if_pos hst] at hx
          injection hx with hx
          exact hx ▸ hst
        · rw [if_neg hst] at hx
          exact hbef x hx
      obtain ⟨hmem, hcoin⟩ := ih hbef' h
      exact ⟨List.mem_cons_of_mem _ hmem, hcoin⟩

/-- If the raw series is nonempty and no raw sample lies within the 10 ms
tolerance of `t`, interpolation always produces a value. -/
theorem interpolateAngleValue_isSome [DecidableEq α] {angleData : List (AngleData α)} {t : α}
    (hne : angleData ≠ [])
    (hfind : angleData.find? (fun d => |d.timestamp - t| < 1 / 100) = none) :
    (interpolateAngleValue angleData t).isSome := by
  match angleData, hne with
  | [s], _ => simp [interpolateAngleValue]
  | s1 :: s2 :: rest, _ =>
    rw [interpolateAngleValue]
    rcases hfs : findSurroundGo t none (s1 :: s2 :: rest) with ⟨b?, a?⟩
    cases b? with
    | none =>
      cases a? with
      | none => exact absurd (findSurroundGo_eq_none_none hfs).1 (by simp)
      | some a => simp
    | some b =>
      cases a? with
      | none => simp
      | some a =>
        have hba : ¬ b = a := by
          intro hba
          obtain ⟨hmem, hcoin⟩ := findSurroundGo_some_some (fun x hx => by cases hx) hfs
          have hat := hcoin hba
          have := List.find?_eq_none.mp hfind a hmem
          rw [hat] at this
          simp at this
        simp [hba]

omit [LinearOrderedField α] in
/-- A `filterMap` whose function succeeds on every element preserves the
length. -/
theorem length_filterMap_eq {β γ : Type} (f : β → Option γ) (l : List β)
    (h : ∀ x ∈ l, (f x).isSome) : (l.filterMap f).length = l.length := by
  induction l with
  | nil => rfl
  | cons x xs ih =>
    rw [List.filterMap_cons]
    rcases hfx : f x with _ | y
    · exact absurd (hfx ▸ h x (List.mem_cons_self x xs)) (by simp)
    · simp only [List.length_cons]
      rw [ih (fun z hz => h z (List.mem_cons_of_mem _ hz))]

/-- For a nonempty raw series no longer than the frame timeline, the
gap-filled series has exactly one sample per frame of the timeline. -/
theorem fillAngleDataGaps_length [DecidableEq α] (angleData : List (AngleData α))
    (allFrames : List (FrameAnalysis α)) (hne : angleData ≠ [])
    (hle : angleData.length ≤ allFrames.length) :
    (fillAngleDataGaps angleData allFrames).length = allFrames.length := by
  rw [fillAngleDataGaps]
  rw [if_neg (by simpa [List.length_eq_zero] using hne)]
  dsimp only
  have hlen : ∀ (F : List (AngleData α)), F.length = allFrames.length →
      (if angleData.length < F.length then F else angleData).length = allFrames.length := by
    intro F hF
    split_ifs with hlt
    · exact hF
    · omega
  apply hlen
  apply length_filterMap_eq
  intro frame _
  rcases hf : angleData.find? (fun data => |data.timestamp - frame.timestamp| < 1 / 100)
    with _ | ex
  · rw [hf]
    show (Option.map (fun interpolatedAngle =>
      ({ timestamp := frame.timestamp, frameIndex := allFrames.indexOf frame,
         angle := interpolatedAngle } : AngleData α))
      (interpolateAngleValue angleData frame.timestamp)).isSome = true
    simpa using interpolateAngleValue_isSome hne hf
  · rw [hf]
    rfl

/-- Claim C8 counterexample: a processed frame with a non-null but empty
world-landmark list contributes to the frame count but yields no valid
sample for any channel, so the gap-filled left-knee series is empty while
the count of processed frames with non-null world landmarks is 1. -/
theorem analysis_c8_counterexample :
    ((analyzeAngles emptyLandmarksAnalysis).leftKneeFlexion).length ≠
      (framesWithLandmarks emptyLandmarksAnalysis).length := by
  have hframes : framesWithLandmarks emptyLandmarksAnalysis =
      [⟨0, some [], true⟩] := by
    simp [framesWithLandmarks, emptyLandmarksAnalysis, List.filter]
  have hraw : rawChannelData calculateLeftKneeFlexion emptyLandmarksAnalysis = [] := by
    rw [rawChannelData, hframes]
    simp [calculateLeftKneeFlexion]
  have hchannel : (analyzeAngles emptyLandmarksAnalysis).leftKneeFlexion =
      fillAngleDataGaps (rawChannelData calculateLeftKneeFlexion emptyLandmarksAnalysis)
        (framesWithLandmarks emptyLandmarksAnalysis) := rfl
  rw [hchannel, hraw, hframes]
  simp [fillAngleDataGaps]

/-- Claim C8 amended: for every angle channel whose raw series is nonempty
(at least one processed frame yields a valid sample for that channel), the
gap-filled series returned by `analyzeAngles` has exactly one sample per
processed frame with non-null world landmarks; a channel with no valid
samples instead stays empty. -/
theorem analysis_c8_amended (ch : Channel) (analysis : VideoAnalysis ℝ)
    (hne : rawChannelData (channelExtractor ch) analysis ≠ []) :
    ((analyzeAngles analysis).channel ch).length = (framesWithLandmarks analysis).length := by
  have hch : (analyzeAngles analysis).channel ch =
      fillAngleDataGaps (rawChannelData (channelExtractor ch) analysis)
        (framesWithLandmarks analysis) := by
    cases ch <;> rfl
  rw [hch]
  exact fillAngleDataGaps_length _ _ hne (List.length_filterMap_le _ _)

/-- Witness for the amended C8 on a one-frame analysis with a complete
landmark set and the weight-bearing hip channel. -/
theorem analysis_c8_amended_witness :
    rawChannelData (channelExtractor .weightBearingHipAngle) fullFrameAnalysis ≠ [] ∧
    ((analyzeAngles fullFrameAnalysis).channel .weightBearingHipAngle).length =
      (framesWithLandmarks fullFrameAnalysis).length := by
  have hne : rawChannelData (channelExtractor .weightBearingHipAngle) fullFrameAnalysis ≠ [] := by
    have h23 : fullLandmarks[23]? = some ⟨0, 0, none, none⟩ := rfl
    have h24 : fullLandmarks[24]? = some ⟨0, 0, none, none⟩ := rfl
    simp [rawChannelData, framesWithLandmarks, fullFrameAnalysis, channelExtractor,
      calculateWeightBearingHipAngle, h23, h24]
  exact ⟨hne, analysis_c8_amended .weightBearingHipAngle fullFrameAnalysis hne⟩

/-! Helper lemmas for the encoding-invariance analysis of the rotation
count (claim C3). -/

/-- The wraparound correction changes a delta by a multiple of 360. -/
theorem wrapDelta_sub_self (d : ℚ) :
    wrapDelta d - d = -360 ∨ wrapDelta d - d = 0 ∨ wrapDelta d - d = 360 := by
  simp only [wrapDelta]
  split_ifs <;> norm_num

/-- A difference that is a multiple of 360 and lies in (-720, 720) is one of
-360, 0, 360. -/
theorem congr_step {a b : ℚ} (hk : ∃ k : ℤ, a - b = 360 * k)
    (h1 : -720 < a - b) (h2 : a - b < 720) :
    a - b = -360 ∨ a - b = 0 ∨ a - b = 360 := by
  obtain ⟨k, hk⟩ := hk
  have hk1 : (-2 : ℤ) < k := by
    by_contra hc
    push_neg at hc
    have hq : (k : ℚ) ≤ -2 := by exact_mod_cast hc
    nlinarith
  have hk2 : k < 2 := by
    by_contra hc
    push_neg at hc
    have hq : (2 : ℚ) ≤ (k : ℚ) := by exact_mod_cast hc
    nlinarith
  interval_cases k
  · left
    rw [hk]
    norm_num
  · right
    left
    rw [hk]
    norm_num
  · right
    right
    rw [hk]
    norm_num

/-- Sample-wise congruence and the two encoding ranges transfer to the raw
frame-to-frame deltas: congruent up to one turn, each inside (-360, 360). -/
theorem forall₂_angleDeltas_of_congr {lA lB : List (AngleData ℚ)}
    (hrel : List.Forall₂ (fun a b => (∃ k : ℤ, a.angle - b.angle = 360 * (k : ℚ)) ∧
      (0 ≤ a.angle ∧ a.angle < 360) ∧ (-180 < b.angle ∧ b.angle ≤ 180)) lA lB) :
    List.Forall₂ (fun dA dB => (dA - dB = -360 ∨ dA - dB = 0 ∨ dA - dB = 360) ∧
      (-360 < dA ∧ dA < 360) ∧ (-360 < dB ∧ dB < 360))
      (angleDeltas lA) (angleDeltas lB) := by
  induction hrel with
  | nil => exact .nil
  | @cons x u as bs hxu hrest ih =>
    cases hrest with
    | nil => exact .nil
    | @cons y v as' bs' hyv hrest' =>
      refine .cons ?_ ih
      dsimp only
      obtain ⟨⟨kx, hkx⟩, ⟨hx0, hx360⟩, ⟨hu0, hu360⟩⟩ := hxu
      obtain ⟨⟨ky, hky⟩, ⟨hy0, hy360⟩, ⟨hv0, hv360⟩⟩ := hyv
      refine ⟨?_, ⟨by linarith, by linarith⟩, ⟨by linarith, by linarith⟩⟩
      refine congr_step ⟨ky - kx, ?_⟩ (by linarith) (by linarith)
      push_cast
      linarith

/-- Two deltas congruent up to one turn, both inside (-360, 360), wrap to
the same value as long as the wrapped value is not the ambiguous half
turn. -/
theorem wrapDelta_congr {dA dB : ℚ} (hA1 : -360 < dA) (hA2 : dA < 360)
    (hB1 : -360 < dB) (hB2 : dB < 360)
    (hd : dA - dB = -360 ∨ dA - dB = 0 ∨ dA - dB = 360)
    (h180l : -180 < wrapDelta dA) (h180r : wrapDelta dA < 180) :
    wrapDelta dB = wrapDelta dA := by
  rcases hd with h | h | h <;>
    (simp only [wrapDelta] at h180l h180r ⊢; split_ifs at h180l h180r ⊢ <;> linarith)

/-- Outside the noise band on the reversal side, the CCW direction forcing
agrees on deltas congruent up to one turn. -/
theorem forceDirectionDelta_congr_pos {net dA dB : ℚ} (hnet : 0 < net)
    (hA1 : -360 < dA) (hA2 : dA < 360) (hB1 : -360 < dB) (hB2 : dB < 360)
    (hd : dA - dB = -360 ∨ dA - dB = 0 ∨ dA - dB = 360)
    (hband : wrapDelta dA < -20 ∨ 0 ≤ wrapDelta dA) :
    forceDirectionDelta net dB = forceDirectionDelta net dA := by
  simp only [forceDirectionDelta]
  rw [if_pos hnet, if_pos hnet]
  simp only [wrapDelta] at hband
  rcases hd with h | h | h <;> rcases hband with hb | hb <;>
    (split_ifs at hb ⊢ <;> linarith)

/-- Outside the noise band on the reversal side, the CW direction forcing
agrees on deltas congruent up to one turn. -/
theorem forceDirectionDelta_congr_neg {net dA dB : ℚ} (hnet : net < 0)
    (hA1 : -360 < dA) (hA2 : dA < 360) (hB1 : -360 < dB) (hB2 : dB < 360)
    (hd : dA - dB = -360 ∨ dA - dB = 0 ∨ dA - dB = 360)
    (hband : 20 < wrapDelta dA ∨ wrapDelta dA ≤ 0) :
    forceDirectionDelta net dB = forceDirectionDelta net dA := by
  simp only [forceDirectionDelta]
  rw [if_neg (asymm hnet), if_neg (asymm hnet), if_pos hnet, if_pos hnet]
  simp only [wrapDelta] at hband
  rcases hd with h | h | h <;> rcases hband with hb | hb <;>
    (split_ifs at hb ⊢ <;> linarith)

/-- With a zero net rotation the direction forcing passes deltas through. -/
theorem forceDirectionDelta_zero (d : ℚ) : forceDirectionDelta 0 d = d := by
  simp [forceDirectionDelta]

/-- The raw deltas of a series telescope to last angle minus first angle. -/
theorem sum_angleDeltas (x : AngleData ℚ) (l : List (AngleData ℚ)) :
    (angleDeltas (x :: l)).sum =
      ((x :: l).getLast (List.cons_ne_nil x l)).angle - x.angle := by
  induction l generalizing x with
  | nil => simp [angleDeltas]
  | cons y l ih =>
    have hstep : angleDeltas (x :: y :: l) = (y.angle - x.angle) :: angleDeltas (y :: l) := rfl
    rw [hstep, List.sum_cons, ih y, List.getLast_cons_cons]
    ring

/-- The sum of wrapped deltas differs from the raw sum by a multiple of
360. -/
theorem sum_map_wrapDelta_congr (ds : List ℚ) :
    ∃ m : ℤ, (ds.map wrapDelta).sum - ds.sum = 360 * m := by
  induction ds with
  | nil => exact ⟨0, by norm_num⟩
  | cons d ds ih =>
    obtain ⟨m, hm⟩ := ih
    rcases wrapDelta_sub_self d with h | h | h
    · refine ⟨m - 1, ?_⟩
      simp only [List.map_cons, List.sum_cons]
      push_cast
      linarith
    · refine ⟨m, ?_⟩
      simp only [List.map_cons, List.sum_cons]
      linarith
    · refine ⟨m + 1, ?_⟩
      simp only [List.map_cons, List.sum_cons]
      push_cast
      linarith

/-- A `Forall₂` relation transfers to the last elements of two nonempty
lists. -/
theorem forall₂_getLast {P : AngleData ℚ → AngleData ℚ → Prop} :
    ∀ {l m : List (AngleData ℚ)}, List.Forall₂ P l m →
      ∀ (hl : l ≠ []) (hm : m ≠ []), P (l.getLast hl) (m.getLast hm) := by
  intro l m h
  induction h with
  | nil => intro hl _; exact absurd rfl hl
  | @cons x u as bs hxu hrest ih =>
    intro hl hm
    cases hrest with
    | nil => exact hxu
    | @cons y v as' bs' hyv hrest' =>
      rw [List.getLast_cons_cons, List.getLast_cons_cons]
      exact ih (List.cons_ne_nil y as') (List.cons_ne_nil v bs')

/-- The whole-series rotation count in terms of the direction-forced delta
sum, for a series of at least two samples. -/
theorem seriesRotationCount_eq (l : List (AngleData ℚ)) (h2 : 2 ≤ l.length) :
    seriesRotationCount l =
      some (|((angleDeltas l).map (forceDirectionDelta (netRotation l))).sum| / 360) := by
  have hmap := cumulativeRotation_map_angle l h2
  have hhead : ((calculateCumulativeRotation l).map AngleData.angle).head? = some 0 := by
    rw [hmap]
    exact head?_scanl _ _ _
  have hlast : ((calculateCumulativeRotation l).map AngleData.angle).getLast? =
      some (0 + ((angleDeltas l).map (forceDirectionDelta (netRotation l))).sum) := by
    rw [hmap]
    exact getLast?_scanl_add _ _
  rw [List.head?_map] at hhead
  rw [List.getLast?_map] at hlast
  obtain ⟨s, hs, hs0⟩ := Option.map_eq_some'.mp hhead
  obtain ⟨e, he, he0⟩ := Option.map_eq_some'.mp hlast
  rw [seriesRotationCount, hs, he]
  dsimp only
  rw [hs0, he0]
  norm_num

/-- A short series has no rotation count. -/
theorem seriesRotationCount_short (l : List (AngleData ℚ)) (hl : l.length < 2) :
    seriesRotationCount l = none := by
  have hempty : calculateCumulativeRotation l = [] := by
    rw [calculateCumulativeRotation, if_pos hl]
  rw [seriesRotationCount, hempty]
  rfl

/-- Claim C3 counterexample: `encodingA` (in `[0, 360)`) and `encodingB`
(in `(-180, 180]`) encode the same motion, sample for sample congruent
mod 360, yet the two-pass tracker counts 3/4 of a rotation for the first
and 7/4 for the second: the -1° jitter step at the 180° boundary appears as
a raw delta of -1 in one encoding (passed through) and +359 in the other
(also passed through, as it is not below the -20° threshold). -/
theorem rotation_c3_counterexample :
    List.Forall₂ (fun a b => (∃ k : ℤ, a.angle - b.angle = 360 * (k : ℚ)) ∧
      (0 ≤ a.angle ∧ a.angle < 360) ∧ (-180 < b.angle ∧ b.angle ≤ 180))
      encodingA encodingB ∧
    seriesRotationCount encodingA = some (3 / 4) ∧
    seriesRotationCount encodingB = some (7 / 4) ∧
    ((3 : ℚ) / 4) ≠ 7 / 4 := by
  refine ⟨?_, ?_, ?_, by norm_num⟩
  · simp only [encodingA, encodingB]
    refine .cons ⟨⟨0, by norm_num⟩, by norm_num, by norm_num⟩ ?_
    refine .cons ⟨⟨0, by norm_num⟩, by norm_num, by norm_num⟩ ?_
    refine .cons ⟨⟨1, by norm_num⟩, by norm_num, by norm_num⟩ ?_
    refine .cons ⟨⟨0, by norm_num⟩, by norm_num, by norm_num⟩ ?_
    exact .cons ⟨⟨1, by norm_num⟩, by norm_num, by norm_num⟩ .nil
  · norm_num [seriesRotationCount, calculateCumulativeRotation, netRotation, angleDeltas,
      wrapDelta, forceDirectionDelta, List.scanl, encodingA, abs_of_nonneg]
  · norm_num [seriesRotationCount, calculateCumulativeRotation, netRotation, angleDeltas,
      wrapDelta, forceDirectionDelta, List.scanl, encodingB, abs_of_nonneg]

/-- Claim C3 amended: the rotation count is invariant between the `[0, 360)`
encoding and the `(-180, 180]` encoding of the same motion provided no
frame-to-frame step wraps to exactly ±180° (the ambiguous half turn) and no
step's wrapped delta falls in the noise band on the reversal side of the
dominant direction (in `[-20°, 0)` for a CCW-dominant series, in `(0, 20°]`
for a CW-dominant one). -/
theorem rotation_c3_amended (lA lB : List (AngleData ℚ))
    (hrel : List.Forall₂ (fun a b => (∃ k : ℤ, a.angle - b.angle = 360 * (k : ℚ)) ∧
      (0 ≤ a.angle ∧ a.angle < 360) ∧ (-180 < b.angle ∧ b.angle ≤ 180)) lA lB)
    (h180 : ∀ d ∈ angleDeltas lA, -180 < wrapDelta d ∧ wrapDelta d < 180)
    (hccw : 0 < netRotation lA → ∀ d ∈ angleDeltas lA, wrapDelta d < -20 ∨ 0 ≤ wrapDelta d)
    (hcw : netRotation lA < 0 → ∀ d ∈ angleDeltas lA, 20 < wrapDelta d ∨ wrapDelta d ≤ 0) :
    seriesRotationCount lA = seriesRotationCount lB := by
  have hlen : lA.length = lB.length := hrel.length_eq
  by_cases h2 : 2 ≤ lA.length
  case neg =>
    rw [seriesRotationCount_short lA (by omega), seriesRotationCount_short lB (by omega)]
  case pos =>
  have h2B : 2 ≤ lB.length := by omega
  have hd2 := forall₂_angleDeltas_of_congr hrel
  have hdlen : (angleDeltas lA).length = (angleDeltas lB).length := hd2.length_eq
  have hd2get := (List.forall₂_iff_get.mp hd2).2
  have hwrap_eq : (angleDeltas lA).map wrapDelta = (angleDeltas lB).map wrapDelta := by
    apply List.ext_get (by simp [hdlen])
    intro i h1 h2'
    rw [List.get_map, List.get_map]
    obtain ⟨hdcongr, ⟨hA1, hA2⟩, ⟨hB1, hB2⟩⟩ :=
      hd2get i (by simpa using h1) (by simpa using h2')
    obtain ⟨h1l, h1r⟩ := h180 _ ((angleDeltas lA).get_mem _ _)
    exact (wrapDelta_congr hA1 hA2 hB1 hB2 hdcongr h1l h1r).symm
  have hnet_eq : netRotation lB = netRotation lA := by
    unfold netRotation
    rw [← hwrap_eq]
  rcases lt_trichotomy 0 (netRotation lA) with hpos | hzero | hneg
  · have hband := hccw hpos
    have hforce : (angleDeltas lA).map (forceDirectionDelta (netRotation lA)) =
        (angleDeltas lB).map (forceDirectionDelta (netRotation lA)) := by
      apply List.ext_get (by simp [hdlen])
      intro i h1 h2'
      rw [List.get_map, List.get_map]
      obtain ⟨hdcongr, ⟨hA1, hA2⟩, ⟨hB1, hB2⟩⟩ :=
        hd2get i (by simpa using h1) (by simpa using h2')
      exact (forceDirectionDelta_congr_pos hpos hA1 hA2 hB1 hB2 hdcongr
        (hband _ ((angleDeltas lA).get_mem _ _))).symm
    rw [seriesRotationCount_eq lA h2, seriesRotationCount_eq lB h2B, hnet_eq, hforce]
  · have hzA : netRotation lA = 0 := hzero.symm
    obtain ⟨xA, lA', rfl⟩ : ∃ x l', lA = x :: l' := by
      cases lA with
      | nil => simp at h2
      | cons x l' => exact ⟨x, l', rfl⟩
    obtain ⟨xB, lB', rfl⟩ : ∃ x l', lB = x :: l' := by
      cases lB with
      | nil => simp at h2B
      | cons x l' => exact ⟨x, l', rfl⟩
    have htelA := sum_angleDeltas xA lA'
    have htelB := sum_angleDeltas xB lB'
    obtain ⟨m, hm⟩ := sum_map_wrapDelta_congr (angleDeltas (xA :: lA'))
    have hwz : ((angleDeltas (xA :: lA')).map wrapDelta).sum = 0 := hzA
    have hrawA : (angleDeltas (xA :: lA')).sum = 360 * (-(m : ℚ)) := by linarith
    have hheadP := (List.forall₂_cons.mp hrel).1
    have hlastP := forall₂_getLast hrel (List.cons_ne_nil xA lA') (List.cons_ne_nil xB lB')
    obtain ⟨⟨kh, hkh⟩, ⟨hxA0, hxA360⟩, ⟨hxB0, hxB360⟩⟩ := hheadP
    obtain ⟨⟨kl, hkl⟩, ⟨hlA0, hlA360⟩, ⟨hlB0, hlB360⟩⟩ := hlastP
    have hbound1 : -360 < (angleDeltas (xA :: lA')).sum := by
      rw [htelA]
      linarith
    have hbound2 : (angleDeltas (xA :: lA')).sum < 360 := by
      rw [htelA]
      linarith
    rw [hrawA] at hbound1 hbound2
    have hm0 : m = 0 := by
      have h1 : -(1 : ℚ) < -(m : ℚ) := by linarith
      have h2' : -(m : ℚ) < 1 := by linarith
      have h3 : (-1 : ℤ) < -m := by exact_mod_cast h1
      have h4 : (-m : ℤ) < 1 := by exact_mod_cast h2'
      omega
    have hsumA0 : (angleDeltas (xA :: lA')).sum = 0 := by
      rw [hrawA, hm0]
      norm_num
    have hlasteq : ((xA :: lA').getLast (List.cons_ne_nil xA lA')).angle = xA.angle := by
      rw [htelA] at hsumA0
      linarith
    have hsumB : (angleDeltas (xB :: lB')).sum = 360 * ((kh : ℚ) - (kl : ℚ)) := by
      rw [htelB]
      linarith
    have hboundB1 : -360 < (angleDeltas (xB :: lB')).sum := by
      rw [htelB]
      linarith
    have hboundB2 : (angleDeltas (xB :: lB')).sum < 360 := by
      rw [htelB]
      linarith
    rw [hsumB] at hboundB1 hboundB2
    have hkhl : kh = kl := by
      have h1 : -(1 : ℚ) < (kh : ℚ) - (kl : ℚ) := by linarith
      have h2' : (kh : ℚ) - (kl : ℚ) < 1 := by linarith
      have h3 : (-1 : ℤ) < kh - kl := by exact_mod_cast h1
      have h4 : (kh - kl : ℤ) < 1 := by exact_mod_cast h2'
      omega
    have hsumB0 : (angleDeltas (xB :: lB')).sum = 0 := by
      rw [hsumB, hkhl]
      norm_num
    have hforce0 : ∀ ds : List ℚ, ds.map (forceDirectionDelta 0) = ds := by
      intro ds
      have h1 : ds.map (forceDirectionDelta 0) = ds.map id :=
        List.map_congr_left (fun d _ => forceDirectionDelta_zero d)
      rw [h1, List.map_id]
    rw [seriesRotationCount_eq _ h2, seriesRotationCount_eq _ h2B, hnet_eq, hzA,
      hforce0, hforce0, hsumA0, hsumB0]
  · have hband := hcw hneg
    have hforce : (angleDeltas lA).map (forceDirectionDelta (netRotation lA)) =
        (angleDeltas lB).map (forceDirectionDelta (netRotation lA)) := by
      apply List.ext_get (by simp [hdlen])
      intro i h1 h2'
      rw [List.get_map, List.get_map]
      obtain ⟨hdcongr, ⟨hA1, hA2⟩, ⟨hB1, hB2⟩⟩ :=
        hd2get i (by simpa using h1) (by simpa using h2')
      exact (forceDirectionDelta_congr_neg hneg hA1 hA2 hB1 hB2 hdcongr
        (hband _ ((angleDeltas lA).get_mem _ _))).symm
    rw [seriesRotationCount_eq lA h2, seriesRotationCount_eq lB h2B, hnet_eq, hforce]

/-- Witness for the amended C3 on a three-sample CCW motion encoded both
ways. -/
theorem rotation_c3_amended_witness :
    (List.Forall₂ (fun a b => (∃ k : ℤ, a.angle - b.angle = 360 * (k : ℚ)) ∧
      (0 ≤ a.angle ∧ a.angle < 360) ∧ (-180 < b.angle ∧ b.angle ≤ 180)) encCcwA encCcwB ∧
    (∀ d ∈ angleDeltas encCcwA, -180 < wrapDelta d ∧ wrapDelta d < 180) ∧
    (0 < netRotation encCcwA →
      ∀ d ∈ angleDeltas encCcwA, wrapDelta d < -20 ∨ 0 ≤ wrapDelta d) ∧
    (netRotation encCcwA < 0 →
      ∀ d ∈ angleDeltas encCcwA, 20 < wrapDelta d ∨ wrapDelta d ≤ 0)) ∧
    seriesRotationCount encCcwA = seriesRotationCount encCcwB := by
  have hdelta : angleDeltas encCcwA = [90, 110] := by
    norm_num [angleDeltas, encCcwA]
  have h1 : List.Forall₂ (fun a b => (∃ k : ℤ, a.angle - b.angle = 360 * (k : ℚ)) ∧
      (0 ≤ a.angle ∧ a.angle < 360) ∧ (-180 < b.angle ∧ b.angle ≤ 180)) encCcwA encCcwB := by
    simp only [encCcwA, encCcwB]
    refine .cons ⟨⟨0, by norm_num⟩, by norm_num, by norm_num⟩ ?_
    refine .cons ⟨⟨0, by norm_num⟩, by norm_num, by norm_num⟩ ?_
    exact .cons ⟨⟨1, by norm_num⟩, by norm_num, by norm_num⟩ .nil
  have h2 : ∀ d ∈ angleDeltas encCcwA, -180 < wrapDelta d ∧ wrapDelta d < 180 := by
    rw [hdelta]
    intro d hd
    rcases List.mem_cons.mp hd with rfl | hd'
    · norm_num [wrapDelta]
    · rcases List.mem_cons.mp hd' with rfl | hd''
      · norm_num [wrapDelta]
      · exact absurd hd'' (List.not_mem_nil d)
  have h3 : 0 < netRotation encCcwA →
      ∀ d ∈ angleDeltas encCcwA, wrapDelta d < -20 ∨ 0 ≤ wrapDelta d := by
    intro _ d hd
    rw [hdelta] at hd
    rcases List.mem_cons.mp hd with rfl | hd'
    · right
      norm_num [wrapDelta]
    · rcases List.mem_cons.mp hd' with rfl | hd''
      · right
        norm_num [wrapDelta]
      · exact absurd hd'' (List.not_mem_nil d)
  have h4 : netRotation encCcwA < 0 →
      ∀ d ∈ angleDeltas encCcwA, 20 < wrapDelta d ∨ wrapDelta d ≤ 0 := by
    intro hneg
    have : netRotation encCcwA = 200 := by
      norm_num [netRotation, angleDeltas, wrapDelta, encCcwA]
    rw [this] at hneg
    norm_num at hneg
  exact ⟨⟨h1, h2, h3, h4⟩, rotation_c3_amended encCcwA encCcwB h1 h2 h3 h4⟩

end FeedbackLoop
